import Mathlib

/-!
Shallow embedding of the slig distributed-lock tool (src/slig.py) and
verification of its specification claims.

The embedding models:
* the scratch working copy as an association list of file names to contents;
* Python `file.readline()` as the first line of the content including a
  trailing newline when one is present;
* git subprocess invocations as a stream of externally supplied success
  results (`env : Nat -> Bool`), consumed one per invocation in order, with
  the full command trace recorded;
* each engine operation (`acquire`, `release`, `add_lock`, `remove_lock`,
  `_sync_check_conflict`) as a pure function from inputs and the git result
  stream to an outcome (returned value, `sys.exit` code, or uncaught
  exception), the final working copy, the git trace, the configuration and
  the printed diagnostics.
-/

namespace Slig

/-- The scratch working copy: files at the repository root as an association
list of basename to content (models `pathlib.Path(self.path).iterdir()` plus
`open`). -/
structure WorkingCopy where
  files : List (String × String)
deriving Repr, DecidableEq

/-- Basenames at the root, as returned by `iterdir`. -/
def fileNames (wc : WorkingCopy) : List String := wc.files.map Prod.fst

/-- Python `name in map(lambda x: x.name, iterdir())`. -/
def fileExists (wc : WorkingCopy) (name : String) : Bool :=
  (fileNames wc).contains name

/-- Content of a file at the root, when present. -/
def readFile (wc : WorkingCopy) (name : String) : Option String :=
  (wc.files.find? (fun p => p.1 == name)).map Prod.snd

/-- `open(path, "w")` followed by `write(content)`: truncate when the file
exists, create it otherwise. -/
def writeFile (wc : WorkingCopy) (name content : String) : WorkingCopy :=
  if fileExists wc name then
    ⟨wc.files.map (fun p => if p.1 == name then (name, content) else p)⟩
  else
    ⟨wc.files ++ [(name, content)]⟩

/-- File deletion (the working-tree effect of `git rm`). -/
def removeFile (wc : WorkingCopy) (name : String) : WorkingCopy :=
  ⟨wc.files.filter (fun p => p.1 != name)⟩

/-- Characters up to and including the first newline. -/
def readlineChars : List Char → List Char
  | [] => []
  | ch :: rest => if ch = '\n' then ['\n'] else ch :: readlineChars rest

/-- Python `file.readline()` on the whole content: the raw first line,
including the terminating newline when the content has one (no stripping). -/
def readline (s : String) : String := ⟨readlineChars s.data⟩

/-- Python `str.startswith`. -/
def pyStartswith (s pre : String) : Bool :=
  pre.data.isPrefixOf s.data

/-- First-match lookup in an association list; models membership test and
indexing of the parsed `config['locks']` dictionary. -/
def lookupStr : List (String × String) → String → Option String
  | [], _ => none
  | (k, v) :: rest, key => if k == key then some v else lookupStr rest key

/-- The parsed `slig.ini` configuration: the `locks` section as an
association list of lock name to kind string. -/
structure SligConfig where
  locks : List (String × String)
deriving Repr, DecidableEq

/-- `REPO_CONFIG_FILENAME`. -/
def repoConfigFilename : String := "slig.ini"

/-- Serialisation of the configuration written back by `config.write`.  The
textual format abstracts configparser output (the metadata section and exact
spacing are elided); no claim inspects this file's text. -/
def configWrite (cfg : SligConfig) : String :=
  "[locks]\n" ++ String.join (cfg.locks.map (fun p => p.1 ++ " = " ++ p.2 ++ "\n"))

/-- State of the git subprocess driver: index of the next result to consume
from the environment stream, and the trace of commands invoked so far. -/
structure GitState where
  next : Nat
  trace : List (List String)
deriving Repr, DecidableEq

/-- `_call_git_command`: run one git command; the external world decides
success via the result stream `env`, consumed in invocation order. -/
def runGit (env : Nat → Bool) (cmd : List String) (gs : GitState) :
    Bool × GitState :=
  (env gs.next, ⟨gs.next + 1, gs.trace ++ [cmd]⟩)

/-- Diagnostic printed when a `GitError` is caught (`print(e, ...)`); the
embedding does not track numeric return codes, only failure. -/
def gitErrorMsg : String := "Git process exited with code nonzero"

/-- `MAX_RETRY` in `_sync_check_conflict`. -/
def MAX_RETRY : Nat := 3

/-- `_sync_check_conflict`: speculative push, then the
`while retry_cnt < MAX_RETRY` loop.  Every branch of the loop body ends in
`return` (a failed pull returns False, a successful push returns True, and
the `except GitError` around the push returns False), so only the first
iteration (`retry_cnt` incremented from 0 to 1) can ever execute; the
translation therefore unrolls the loop once under its initial guard. -/
def syncCheckConflict (env : Nat → Bool) (gs : GitState) : Bool × GitState :=
  match runGit env ["push"] gs with
  | (true, gs1) => (true, gs1)
  | (false, gs1) =>
    if 0 < MAX_RETRY then
      match runGit env ["pull", "--rebase"] gs1 with
      | (false, gs2) => (false, gs2)
      | (true, gs2) =>
        match runGit env ["push"] gs2 with
        | (true, gs3) => (true, gs3)
        | (false, gs3) => (false, gs3)
    else (false, gs1)

/-- The Sync loop as the specification's pseudocode states it (spec 4.4.4):
`repeat at most MAX_RETRY times: if not pull_rebase(): return CONFLICT;
if push(): return SUCCESS; return CONFLICT` — a rejected push after a
successful rebase continues with the next iteration.  Stated here only to be
compared with `syncCheckConflict`, the translation of the source. -/
def specSyncLoop (env : Nat → Bool) : Nat → GitState → Bool × GitState
  | 0, gs => (false, gs)
  | fuel + 1, gs =>
    match runGit env ["pull", "--rebase"] gs with
    | (false, gs1) => (false, gs1)
    | (true, gs1) =>
      match runGit env ["push"] gs1 with
      | (true, gs2) => (true, gs2)
      | (false, gs2) => specSyncLoop env fuel gs2

/-- The whole Sync protocol as the specification states it: speculative
push, then the bounded retry loop. -/
def specSyncCheckConflict (env : Nat → Bool) (gs : GitState) :
    Bool × GitState :=
  match runGit env ["push"] gs with
  | (true, gs1) => (true, gs1)
  | (false, gs1) => specSyncLoop env MAX_RETRY gs1

/-- Outcome of one engine operation, viewed from the caller. -/
inductive Outcome where
  /-- Normal Python return (`some` carries the returned token). -/
  | ret (tok : Option String)
  /-- `sys.exit(code)` reached (and not swallowed). -/
  | exit (code : Nat)
  /-- An uncaught exception (`RuntimeError`) with its message. -/
  | err (msg : String)
deriving Repr, DecidableEq

/-- Result of one engine operation: outcome, final working copy, git driver
state (trace of commands), final in-memory configuration, and diagnostics
printed along the way. -/
structure OpResult where
  outcome : Outcome
  wc : WorkingCopy
  git : GitState
  cfg : SligConfig
  msgs : List String
deriving Repr, DecidableEq

/-- `_lock_acquired`: False when no file `lock_name` is at the root,
otherwise whether the raw first line differs from the literal `READ`. -/
def lockAcquired (wc : WorkingCopy) (lockName : String) : Bool :=
  if fileExists wc lockName then
    readline ((readFile wc lockName).getD "") != "READ"
  else
    false

/-- `_num_read_lock_acquired`: how many root entries start with
`lock_name + ".read."`. -/
def numReadLockAcquired (wc : WorkingCopy) (lockName : String) : Nat :=
  (wc.files.filter (fun p => pyStartswith p.1 (lockName ++ ".read."))).length

/-- The "check if lock is in use" block of `acquire` (the if/elif chain over
the lock kind and `rw_action`): `some msg` means the corresponding
`sys.exit(1)` fires after printing `msg`; `none` means the check passes. -/
def acquireBusyCheck (lockType : String) (rwAction : Option String)
    (wc : WorkingCopy) (lockName : String) : Option String :=
  if lockType = "simple" ∧ lockAcquired wc lockName then
    some ("Lock " ++ lockName ++ " is currently acquired.")
  else if lockType = "readwrite" ∧ rwAction = some "read" then
    if lockAcquired wc lockName then
      some ("Write lock of " ++ lockName ++ " is currently acquired.")
    else none
  else if lockType = "readwrite" ∧ rwAction = some "write" then
    if lockAcquired wc lockName then
      some ("Write lock of " ++ lockName ++ " is currently acquired.")
    else if numReadLockAcquired wc lockName ≠ 0 then
      some ("Read locks of " ++ lockName ++ " are currently acquired.")
    else none
  else none

/-- Tail of `acquire` after the lock files are written and staged: commit
(with the optional comment appended after a blank line), then
`_sync_check_conflict`; on sync success return the token, otherwise print
and exit 1.  A `GitError` from the commit is caught by the operation's
handler and turns into exit 1. -/
def acquireCommitAndSync (env : Nat → Bool) (cfg : SligConfig)
    (wc : WorkingCopy) (lockName : String) (comment : Option String)
    (uniqueToken : String) (gs : GitState) : OpResult :=
  let commitMsg :=
    match comment with
    | some c => "acquire lock: " ++ lockName ++ "\n\n" ++ c
    | none => "acquire lock: " ++ lockName
  match runGit env ["commit", "-m", commitMsg] gs with
  | (false, gs1) => ⟨.exit 1, wc, gs1, cfg, [gitErrorMsg]⟩
  | (true, gs1) =>
    match syncCheckConflict env gs1 with
    | (true, gs2) => ⟨.ret (some uniqueToken), wc, gs2, cfg, []⟩
    | (false, gs2) =>
      ⟨.exit 1, wc, gs2, cfg,
        ["Lock " ++ lockName ++ " might be currently acquired."]⟩

/-- `acquire(lock_name, comment, rw_action)` with the fresh UUID supplied as
the parameter `uniqueToken` (the embedding of `str(u.uuid4())`).  The
operation's `except GitError` handler catches git failures from the staging
and commit steps (exit 1); `sys.exit` and the bare `RuntimeError` of the
impossible branch are not `GitError` and propagate. -/
def acquire (env : Nat → Bool) (cfg : SligConfig) (wc : WorkingCopy)
    (lockName : String) (comment : Option String) (rwAction : Option String)
    (uniqueToken : String) : OpResult :=
  let gs : GitState := ⟨0, []⟩
  match lookupStr cfg.locks lockName with
  | none =>
      ⟨.exit 1, wc, gs, cfg,
        ["Lock " ++ lockName ++ " doesn't exist in repository"]⟩
  | some lockType =>
    match acquireBusyCheck lockType rwAction wc lockName with
    | some busyMsg => ⟨.exit 1, wc, gs, cfg, [busyMsg]⟩
    | none =>
      if lockType = "simple" ∨ rwAction = some "write" then
        let wc1 := writeFile wc lockName uniqueToken
        match runGit env ["add", lockName] gs with
        | (false, gs1) => ⟨.exit 1, wc1, gs1, cfg, [gitErrorMsg]⟩
        | (true, gs1) =>
          acquireCommitAndSync env cfg wc1 lockName comment uniqueToken gs1
      else if lockType = "readwrite" ∧ rwAction = some "read" then
        let readLockName := lockName ++ ".read." ++ uniqueToken
        let wc1 := writeFile wc readLockName uniqueToken
        match runGit env ["add", readLockName] gs with
        | (false, gs1) => ⟨.exit 1, wc1, gs1, cfg, [gitErrorMsg]⟩
        | (true, gs1) =>
          let wc2 := writeFile wc1 lockName "READ"
          match runGit env ["add", lockName] gs1 with
          | (false, gs2) => ⟨.exit 1, wc2, gs2, cfg, [gitErrorMsg]⟩
          | (true, gs2) =>
            acquireCommitAndSync env cfg wc2 lockName comment uniqueToken gs2
      else
        ⟨.err "Impossible branch, possibly bug in coding", wc, gs, cfg, []⟩

/-- Python truthiness of the optional `uuid` argument of `release`
(`if uuid:`): `None` and the empty string are both falsy. -/
def uuidTruthy : Option String → Option String
  | none => none
  | some u => if u = "" then none else some u

/-- Tail of `release` after the files to remove are decided: commit the
removal with the given message, run `_sync_check_conflict`, and on sync
failure print and exit 1. -/
def releaseCommitSync (env : Nat → Bool) (cfg : SligConfig)
    (wc : WorkingCopy) (commitMsg lockName : String) (gs : GitState) :
    OpResult :=
  match runGit env ["commit", "-m", commitMsg] gs with
  | (false, gs1) => ⟨.exit 1, wc, gs1, cfg, [gitErrorMsg]⟩
  | (true, gs1) =>
    match syncCheckConflict env gs1 with
    | (true, gs2) => ⟨.ret none, wc, gs2, cfg, []⟩
    | (false, gs2) =>
      ⟨.exit 1, wc, gs2, cfg,
        ["Lock " ++ lockName ++ " cannot be released."]⟩

/-- The removal block of `release`: when a reader lock is being released,
`git rm` the reader file, re-enumerate, also `git rm` the main lock file
when no reader files remain, and commit with the reader message; otherwise
`git rm` the main lock file and commit with the plain message. -/
def releaseRemovePhase (env : Nat → Bool) (cfg : SligConfig)
    (wc : WorkingCopy) (lockName : String) (releaseReadLock : Option String)
    (uuid : String) (gs : GitState) : OpResult :=
  match releaseReadLock with
  | some readLockName =>
    match runGit env ["rm", readLockName] gs with
    | (false, gs1) => ⟨.exit 1, wc, gs1, cfg, [gitErrorMsg]⟩
    | (true, gs1) =>
      let wc1 := removeFile wc readLockName
      let readMsg := "release read lock: " ++ readLockName ++
        " in uuid: " ++ uuid
      if numReadLockAcquired wc1 lockName = 0 then
        match runGit env ["rm", lockName] gs1 with
        | (false, gs2) => ⟨.exit 1, wc1, gs2, cfg, [gitErrorMsg]⟩
        | (true, gs2) =>
          releaseCommitSync env cfg (removeFile wc1 lockName) readMsg
            lockName gs2
      else
        releaseCommitSync env cfg wc1 readMsg lockName gs1
  | none =>
    match runGit env ["rm", lockName] gs with
    | (false, gs1) => ⟨.exit 1, wc, gs1, cfg, [gitErrorMsg]⟩
    | (true, gs1) =>
      releaseCommitSync env cfg (removeFile wc lockName)
        ("release lock: " ++ lockName) lockName gs1

/-- `release(lock_name, uuid)`: config check, held check, then either the
token path (reader or exclusive dispatch on the raw first line of the lock
file) or the force path (refused for readwrite locks), followed by the
removal phase.  Only `GitError` is caught by the operation's handler;
`sys.exit` propagates. -/
def release (env : Nat → Bool) (cfg : SligConfig) (wc : WorkingCopy)
    (lockName : String) (uuid : Option String) : OpResult :=
  let gs : GitState := ⟨0, []⟩
  match lookupStr cfg.locks lockName with
  | none =>
      ⟨.exit 1, wc, gs, cfg,
        ["Lock " ++ lockName ++ " doesn't exist in repository"]⟩
  | some lockType =>
    if ¬ fileExists wc lockName then
      ⟨.exit 1, wc, gs, cfg,
        ["Lock " ++ lockName ++ " is currently not acquired."]⟩
    else
      match uuidTruthy uuid with
      | some u =>
        let oldUuid := readline ((readFile wc lockName).getD "")
        if oldUuid = "READ" then
          let readLockName := lockName ++ ".read." ++ u
          if ¬ fileExists wc readLockName then
            ⟨.exit 1, wc, gs, cfg, ["No reader lock in uuid: " ++ u]⟩
          else
            releaseRemovePhase env cfg wc lockName (some readLockName) u gs
        else if u ≠ oldUuid then
          ⟨.exit 1, wc, gs, cfg,
            ["Cannot release lock " ++ lockName ++
              ", acquired by another uuid: " ++ oldUuid]⟩
        else
          releaseRemovePhase env cfg wc lockName none u gs
      | none =>
        if lockType = "readwrite" then
          ⟨.exit 1, wc, gs, cfg,
            ["Read-write lock " ++ lockName ++
              " cannot be force-released, try doing it manually"]⟩
        else
          releaseRemovePhase env cfg wc lockName none "" gs

/-- Shared tail of `add_lock` and `remove_lock`: write the configuration
file, stage it, commit with the given message and push; a `GitError`
anywhere here is caught (print, exit 1). -/
def stageConfigCommitPush (env : Nat → Bool) (cfg1 : SligConfig)
    (wc : WorkingCopy) (commitMsg : String) (msgs : List String)
    (gs : GitState) : OpResult :=
  let wc1 := writeFile wc repoConfigFilename (configWrite cfg1)
  match runGit env ["add", repoConfigFilename] gs with
  | (false, gs1) => ⟨.exit 1, wc1, gs1, cfg1, msgs ++ [gitErrorMsg]⟩
  | (true, gs1) =>
    match runGit env ["commit", "-m", commitMsg] gs1 with
    | (false, gs2) => ⟨.exit 1, wc1, gs2, cfg1, msgs ++ [gitErrorMsg]⟩
    | (true, gs2) =>
      match runGit env ["push"] gs2 with
      | (false, gs3) => ⟨.exit 1, wc1, gs3, cfg1, msgs ++ [gitErrorMsg]⟩
      | (true, gs3) => ⟨.ret none, wc1, gs3, cfg1, msgs⟩

/-- `add_lock(lock_name, lock_type)`.  The first `try` block is guarded by a
bare `except:`, which also catches the `SystemExit` raised by `sys.exit(1)`
on the already-declared path: in that case both the "already exists" and the
"Cannot parse" diagnostics are printed, the configuration is left unchanged,
and control falls through to the second block, which writes the config file,
stages it, commits `add <kind> lock: <name>` and pushes. -/
def add_lock (env : Nat → Bool) (cfg : SligConfig) (wc : WorkingCopy)
    (lockName lockType : String) : OpResult :=
  let gs : GitState := ⟨0, []⟩
  let firstBlock :=
    if (lookupStr cfg.locks lockName).isSome then
      (cfg,
        ["Lock " ++ lockName ++ " already exists",
         "Cannot parse " ++ repoConfigFilename ++ " in target repository"])
    else
      (⟨cfg.locks ++ [(lockName, lockType)]⟩, ([] : List String))
  stageConfigCommitPush env firstBlock.1 wc
    ("add " ++ lockType ++ " lock: " ++ lockName) firstBlock.2 gs

/-- `remove_lock(lock_name)`: fail when undeclared; fail when a file named
exactly `lock_name` is at the root (`.read.` files are not consulted);
otherwise pop the entry, write the config file, stage, commit
`remove lock: <name>` and push.  Only `GitError` is caught, so the
`sys.exit(1)` calls propagate. -/
def remove_lock (env : Nat → Bool) (cfg : SligConfig) (wc : WorkingCopy)
    (lockName : String) : OpResult :=
  let gs : GitState := ⟨0, []⟩
  match lookupStr cfg.locks lockName with
  | none =>
      ⟨.exit 1, wc, gs, cfg,
        ["Lock " ++ lockName ++ " doesn't exist in repository"]⟩
  | some _ =>
    if fileExists wc lockName then
      ⟨.exit 1, wc, gs, cfg,
        ["Failed to remove lock " ++ lockName ++
          " which is currently acquired. Release it before removing."]⟩
    else
      let cfg1 : SligConfig := ⟨cfg.locks.filter (fun p => p.1 != lockName)⟩
      stageConfigCommitPush env cfg1 wc
        ("remove lock: " ++ lockName) [] gs

/-- The all-successes git environment: every subprocess invocation exits 0
(in particular the speculative push succeeds, so Sync reports success). -/
def allOk : Nat → Bool := fun _ => true

/-- A race environment for the Sync protocol: the speculative push (result 0)
is rejected, the first pull-rebase (1) succeeds, the following push (2) is
rejected again, and the second pull-rebase (3) and push (4) would succeed. -/
def raceEnv : Nat → Bool := fun k => k == 1 || k == 3 || k == 4

/- ### Helper lemmas about the working-copy primitives -/

theorem pyStartswith_append (a b : String) : pyStartswith (a ++ b) a = true := by
  rw [pyStartswith, String.data_append a b, List.isPrefixOf_iff_prefix]
  exact List.prefix_append _ _

theorem fileExists_iff_mem (wc : WorkingCopy) (n : String) :
    fileExists wc n = true ↔ n ∈ fileNames wc := by
  simp [fileExists, List.contains]

theorem fileExists_of_readFile {wc : WorkingCopy} {n c : String}
    (h : readFile wc n = some c) : fileExists wc n = true := by
  rw [fileExists_iff_mem]
  unfold readFile at h
  cases hf : wc.files.find? (fun p => p.1 == n) with
  | none => rw [hf] at h; simp at h
  | some p =>
    have hp : p.1 = n := by simpa using List.find?_some hf
    have hm : p ∈ wc.files := List.mem_of_find?_eq_some hf
    exact hp ▸ List.mem_map_of_mem Prod.fst hm

theorem find?_map_overwrite_ne (n c m : String) (hne : m ≠ n) :
    ∀ l : List (String × String),
      (l.map (fun p => if p.1 == n then (n, c) else p)).find?
          (fun p => p.1 == m) =
        l.find? (fun p => p.1 == m)
  | [] => rfl
  | hd :: tl => by
    have ih := find?_map_overwrite_ne n c m hne tl
    by_cases hh : hd.1 = n
    · simp [List.find?_cons, hh, Ne.symm hne]
      simpa using ih
    · by_cases hm : hd.1 = m
      · simp [List.find?_cons, hh, hm, hne]
      · simp [List.find?_cons, hh, hm]
        simpa using ih

theorem find?_map_overwrite_self (n c : String) :
    ∀ l : List (String × String), n ∈ l.map Prod.fst →
      (l.map (fun p => if p.1 == n then (n, c) else p)).find?
          (fun p => p.1 == n) = some (n, c)
  | [], h => by simp at h
  | hd :: tl, h => by
    by_cases hh : hd.1 = n
    · simp [List.find?_cons, hh]
    · have hmem : n ∈ tl.map Prod.fst := by
        rcases (by simpa using h) with h1 | h1
        · exact absurd h1.symm hh
        · simpa using h1
      have ih := find?_map_overwrite_self n c tl hmem
      simp [List.find?_cons, hh]
      simpa using ih

/-- `open(path, "w")` then `read` round trip: reading any file of the
working copy after a write sees the written content at the written name and
the previous content elsewhere. -/
theorem readFile_writeFile (wc : WorkingCopy) (n c m : String) :
    readFile (writeFile wc n c) m =
      if m = n then some c else readFile wc m := by
  simp only [writeFile]
  by_cases hex : fileExists wc n
  · rw [if_pos hex]
    by_cases hm : m = n
    · subst hm
      have hmem : m ∈ wc.files.map Prod.fst :=
        (fileExists_iff_mem wc m).mp hex
      simp only [readFile]
      rw [find?_map_overwrite_self m c wc.files hmem]
      simp
    · simp only [readFile]
      rw [find?_map_overwrite_ne n c m hm wc.files, if_neg hm]
  · rw [if_neg hex]
    have hnone : wc.files.find? (fun p => p.1 == n) = none := by
      rw [List.find?_eq_none]
      intro p hp hpn
      exact hex ((fileExists_iff_mem wc n).mpr
        (by simpa using (by simpa using hpn : p.1 = n) ▸
          List.mem_map_of_mem Prod.fst hp))
    by_cases hm : m = n
    · subst hm
      simp only [readFile]
      rw [List.find?_append, hnone]
      simp
    · have h4 : ((n : String) == m) = false := by simpa using (Ne.symm hm)
      simp only [readFile]
      rw [List.find?_append, if_neg hm]
      have hsingle : ([(n, c)].find? (fun p => p.1 == m)) = none := by
        simp [List.find?_cons, Ne.symm hm]
      rw [hsingle, Option.or_none]

theorem filter_ne_eq_self {l : List (String × String)} {r : String}
    (h : r ∉ l.map Prod.fst) : l.filter (fun p => p.1 != r) = l := by
  rw [List.filter_eq_self]
  intro p hp
  have : p.1 ≠ r := fun he => h (he ▸ List.mem_map_of_mem Prod.fst hp)
  simpa using this

theorem count_remove_key (P : String → Bool) (r : String) :
    ∀ l : List (String × String), (l.map Prod.fst).Nodup →
      r ∈ l.map Prod.fst → P r = true →
      (l.filter (fun p => P p.1)).length =
        ((l.filter (fun p => p.1 != r)).filter (fun p => P p.1)).length + 1
  | [], _, hmem, _ => by simp at hmem
  | hd :: tl, hnd, hmem, hP => by
    have hnd2 : hd.1 ∉ tl.map Prod.fst ∧ (tl.map Prod.fst).Nodup := by
      rw [List.map_cons, List.nodup_cons] at hnd
      exact hnd
    have hnd1 : (tl.map Prod.fst).Nodup := hnd2.2
    by_cases hh : hd.1 = r
    · have hnotmem : r ∉ tl.map Prod.fst := hh ▸ hnd2.1
      have heq : tl.filter (fun p => p.1 != r) = tl := filter_ne_eq_self hnotmem
      have hfalse : (hd.1 != r) = false := by simp [hh]
      simp [List.filter_cons, hfalse, heq, hh, hP]
    · have hmem1 : r ∈ tl.map Prod.fst := by
        rcases (by simpa using hmem) with h | h
        · exact absurd h.symm hh
        · simpa using h
      have htrue : (hd.1 != r) = true := by simpa using hh
      by_cases hPh : P hd.1
      · simp [List.filter_cons, htrue, hPh,
          count_remove_key P r tl hnd1 hmem1 hP]
      · simp [List.filter_cons, htrue, hPh,
          count_remove_key P r tl hnd1 hmem1 hP]

/-- Removing one reader file of `name` from a duplicate-free working copy
decrements the reader count by exactly one. -/
theorem numRead_removeFile (wc : WorkingCopy) (name r : String)
    (hnodup : (fileNames wc).Nodup) (hmem : fileExists wc r = true)
    (hpre : pyStartswith r (name ++ ".read.") = true) :
    numReadLockAcquired wc name =
      numReadLockAcquired (removeFile wc r) name + 1 := by
  unfold numReadLockAcquired removeFile
  exact count_remove_key (fun s => pyStartswith s (name ++ ".read.")) r
    wc.files hnodup ((fileExists_iff_mem wc r).mp hmem) hpre

/- ### Claim theorems -/

/-- **C2** (code divergence). In the Sync engine as implemented, the race
"initial push rejected; pull-rebase succeeds; push rejected; the next
pull-rebase and push would succeed" returns CONFLICT after a single
pull-rebase/push iteration (the `except GitError` around the inner push
returns False, so the MAX_RETRY loop never iterates twice), whereas the
specification's loop retries and returns SUCCESS on the same environment:
the claim that a successful rebase followed by a rejected push leads to
another iteration is false of the code. -/
theorem sync_retry_race_divergence :
    (syncCheckConflict raceEnv ⟨0, []⟩).1 = false ∧
    (syncCheckConflict raceEnv ⟨0, []⟩).2.trace =
      [["push"], ["pull", "--rebase"], ["push"]] ∧
    (specSyncCheckConflict raceEnv ⟨0, []⟩).1 = true :=
  ⟨rfl, rfl, rfl⟩

/-- **C3** (code divergence). `add_lock` on a name that is already declared
prints the "already exists" diagnostic, but the bare `except:` swallows the
`SystemExit`, prints a bogus parse-error diagnostic, and then stages,
commits and pushes the (unchanged) configuration; with git succeeding the
operation returns normally (exit status 0) instead of failing without a
commit. -/
theorem add_lock_already_declared_commits :
    add_lock allOk ⟨[("build", "simple")]⟩ ⟨[]⟩ "build" "simple" =
      ⟨.ret none,
       ⟨[("slig.ini", "[locks]\nbuild = simple\n")]⟩,
       ⟨3, [["add", "slig.ini"],
            ["commit", "-m", "add simple lock: build"], ["push"]]⟩,
       ⟨[("build", "simple")]⟩,
       ["Lock build already exists",
        "Cannot parse slig.ini in target repository"]⟩ :=
  rfl

/-- **C10** (confirmed). Lock-mode inspection compares the raw first line,
trailing newline included, against the five-character literal `READ`: on a
one-file working copy the generic comparison is exactly
`readline content != "READ"`; the content `READ` followed by a newline is
classified as exclusively held; reader mode is recognised for the content
written without a trailing newline; and `release` on a lock file containing
`READ` plus newline takes the exclusive branch, rejecting the token of an
existing reader file with the wrong-uuid diagnostic. -/
theorem lock_mode_compares_raw_first_line (c : String) :
    lockAcquired ⟨[("L", c)]⟩ "L" = (readline c != "READ") ∧
    lockAcquired ⟨[("L", "READ\n")]⟩ "L" = true ∧
    lockAcquired ⟨[("L", "READ")]⟩ "L" = false ∧
    (release allOk ⟨[("L", "readwrite")]⟩
        ⟨[("L", "READ\n"), ("L.read.t1", "t1")]⟩ "L" (some "t1")).msgs =
      ["Cannot release lock L, acquired by another uuid: READ\n"] := by
  refine ⟨?_, rfl, rfl, rfl⟩
  simp [lockAcquired, fileExists, fileNames, readFile, List.find?_cons]

/-- **C1** (counterexample). The claim's fast-path condition for a `simple`
lock is bare existence of the file `name`, and for `readwrite`/`write` it
includes bare existence as a disjunct; but the code tests
`_lock_acquired`, which also requires the first line to differ from `READ`:
on a working copy whose `build` (resp. `data`) file contains `READ`, the
claim demands a LockBusy rejection while the code's check passes and the
acquire proceeds to write, commit and return a token. -/
theorem acquire_busy_fastpath_counterexample :
    fileExists ⟨[("build", "READ")]⟩ "build" = true ∧
    acquireBusyCheck "simple" none ⟨[("build", "READ")]⟩ "build" = none ∧
    (acquire allOk ⟨[("build", "simple")]⟩ ⟨[("build", "READ")]⟩
        "build" none none "t1").outcome = .ret (some "t1") ∧
    fileExists ⟨[("data", "READ")]⟩ "data" = true ∧
    acquireBusyCheck "readwrite" (some "write") ⟨[("data", "READ")]⟩
        "data" = none :=
  ⟨rfl, rfl, rfl, rfl, rfl⟩

/-- **C6** (counterexample). A force release of a declared `readwrite` lock
whose file does not exist fails with the LockNotHeld diagnostic, not with
ForceReleaseAmbiguous: the held check precedes the force/kind dispatch. -/
theorem release_force_not_held_counterexample :
    release allOk ⟨[("data", "readwrite")]⟩ ⟨[]⟩ "data" none =
      ⟨.exit 1, ⟨[]⟩, ⟨0, []⟩, ⟨[("data", "readwrite")]⟩,
       ["Lock data is currently not acquired."]⟩ ∧
    "Read-write lock data cannot be force-released, try doing it manually" ∉
      (release allOk ⟨[("data", "readwrite")]⟩ ⟨[]⟩ "data" none).msgs := by
  refine ⟨rfl, ?_⟩
  decide

/-- **C7** (counterexample). `remove_lock` only tests for a file named
exactly `lock_name`: with `data` declared and only `data.read.a` present at
the root, the claim demands a LockInUse failure leaving everything
unchanged, but the code deletes the entry, commits `remove lock: data` and
pushes, returning normally. -/
theorem remove_lock_read_files_counterexample :
    fileExists ⟨[("data.read.a", "a")]⟩ "data.read.a" = true ∧
    remove_lock allOk ⟨[("data", "readwrite")]⟩ ⟨[("data.read.a", "a")]⟩
        "data" =
      ⟨.ret none,
       ⟨[("data.read.a", "a"), ("slig.ini", "[locks]\n")]⟩,
       ⟨3, [["add", "slig.ini"], ["commit", "-m", "remove lock: data"],
            ["push"]]⟩,
       ⟨[]⟩, []⟩ :=
  ⟨rfl, rfl⟩

/-- **C8** (counterexample). After a successful read acquire the main lock
file contains exactly `READ` with no trailing newline: the claim's content
`READ` followed by a newline is not what the code writes
(`lock_file.write("READ")`). -/
theorem acquire_read_newline_counterexample :
    (acquire allOk ⟨[("data", "readwrite")]⟩ ⟨[]⟩ "data" none
        (some "read") "t1").outcome = .ret (some "t1") ∧
    readFile (acquire allOk ⟨[("data", "readwrite")]⟩ ⟨[]⟩ "data" none
        (some "read") "t1").wc "data" = some "READ" ∧
    readFile (acquire allOk ⟨[("data", "readwrite")]⟩ ⟨[]⟩ "data" none
        (some "read") "t1").wc "data" ≠ some "READ\n" := by
  refine ⟨rfl, rfl, ?_⟩
  decide

/-- **C9** (confirmed). Acquiring a declared `readwrite` lock with no
read/write mode skips every busy check (for any working-copy state), writes
no lock file, invokes no git command (hence no commit), and fails with the
uncaught internal `RuntimeError` "Impossible branch, possibly bug in
coding", which the operation's `except GitError` handler does not catch. -/
theorem acquire_readwrite_no_mode_impossible (env : Nat → Bool)
    (cfg : SligConfig) (wc : WorkingCopy) (name : String)
    (comment : Option String) (t : String)
    (hk : lookupStr cfg.locks name = some "readwrite") :
    acquire env cfg wc name comment none t =
      ⟨.err "Impossible branch, possibly bug in coding", wc, ⟨0, []⟩,
       cfg, []⟩ := by
  simp [acquire, hk, acquireBusyCheck]

/-- Witness for `acquire_readwrite_no_mode_impossible` at a held lock. -/
theorem acquire_readwrite_no_mode_impossible_witness :
    acquire allOk ⟨[("data", "readwrite")]⟩ ⟨[("data", "x")]⟩ "data"
        none none "t1" =
      ⟨.err "Impossible branch, possibly bug in coding", ⟨[("data", "x")]⟩,
       ⟨0, []⟩, ⟨[("data", "readwrite")]⟩, []⟩ :=
  acquire_readwrite_no_mode_impossible allOk ⟨[("data", "readwrite")]⟩
    ⟨[("data", "x")]⟩ "data" none "t1" rfl

/-- **C4** (confirmed). Releasing an exclusively held lock (first line of
the lock file differs from `READ`) with a token that differs from that raw
first line exits 1 with the wrong-uuid diagnostic, removes no file, runs no
git command (hence no commit), and leaves the working copy — and so the
holder — unchanged, for every git environment. -/
theorem release_wrong_token_fails (env : Nat → Bool) (cfg : SligConfig)
    (wc : WorkingCopy) (name t kind c : String)
    (hk : lookupStr cfg.locks name = some kind)
    (hc : readFile wc name = some c)
    (hread : readline c ≠ "READ")
    (ht : t ≠ "")
    (hne : t ≠ readline c) :
    release env cfg wc name (some t) =
      ⟨.exit 1, wc, ⟨0, []⟩, cfg,
       ["Cannot release lock " ++ name ++ ", acquired by another uuid: " ++
         readline c]⟩ := by
  have hex : fileExists wc name = true := fileExists_of_readFile hc
  simp [release, hk, hex, uuidTruthy, ht, hc, hread, hne]

/-- Witness for `release_wrong_token_fails`. -/
theorem release_wrong_token_fails_witness :
    release allOk ⟨[("L", "simple")]⟩ ⟨[("L", "tok1")]⟩ "L" (some "tok2") =
      ⟨.exit 1, ⟨[("L", "tok1")]⟩, ⟨0, []⟩, ⟨[("L", "simple")]⟩,
       ["Cannot release lock L, acquired by another uuid: tok1"]⟩ :=
  release_wrong_token_fails allOk ⟨[("L", "simple")]⟩ ⟨[("L", "tok1")]⟩
    "L" "tok2" "simple" "tok1" rfl rfl (by decide) (by decide) (by decide)

/-- **C1** (amended). For every declared lock, the local fast-path check of
acquire rejects with LockBusy exactly when: the kind is `simple` and the
file `name` exists with raw first line different from `READ`; or the kind
is `readwrite`, the mode is read, and `name` exists with first line
different from `READ`; or the kind is `readwrite`, the mode is write, and
either `name` exists with first line different from `READ` or some
`name.read.*` file exists.  In all other cases acquire proceeds to write
the lock files and commit (returning the fresh token when git and the
sync push succeed). -/
theorem acquire_busy_fastpath_amended (wc : WorkingCopy) (name t : String) :
    ((acquireBusyCheck "simple" none wc name).isSome =
      (fileExists wc name &&
        (readline ((readFile wc name).getD "") != "READ"))) ∧
    ((acquireBusyCheck "readwrite" (some "read") wc name).isSome =
      (fileExists wc name &&
        (readline ((readFile wc name).getD "") != "READ"))) ∧
    ((acquireBusyCheck "readwrite" (some "write") wc name).isSome =
      ((fileExists wc name &&
        (readline ((readFile wc name).getD "") != "READ")) ||
        (numReadLockAcquired wc name != 0))) ∧
    ((acquire allOk ⟨[(name, "simple")]⟩ wc name none none t).outcome =
      if (acquireBusyCheck "simple" none wc name).isSome then .exit 1
      else .ret (some t)) ∧
    ((acquire allOk ⟨[(name, "readwrite")]⟩ wc name none (some "read")
        t).outcome =
      if (acquireBusyCheck "readwrite" (some "read") wc name).isSome
      then .exit 1 else .ret (some t)) ∧
    ((acquire allOk ⟨[(name, "readwrite")]⟩ wc name none (some "write")
        t).outcome =
      if (acquireBusyCheck "readwrite" (some "write") wc name).isSome
      then .exit 1 else .ret (some t)) := by
  refine ⟨?_, ?_, ?_, ?_, ?_, ?_⟩
  · simp only [acquireBusyCheck, lockAcquired]
    by_cases hf : fileExists wc name <;>
      by_cases hr : readline ((readFile wc name).getD "") != "READ" <;>
        simp [hf, hr]
  · simp only [acquireBusyCheck, lockAcquired]
    by_cases hf : fileExists wc name <;>
      by_cases hr : readline ((readFile wc name).getD "") != "READ" <;>
        simp [hf, hr]
  · simp only [acquireBusyCheck, lockAcquired]
    by_cases hf : fileExists wc name <;>
      by_cases hr : readline ((readFile wc name).getD "") != "READ" <;>
        by_cases hn : numReadLockAcquired wc name = 0 <;>
          simp [hf, hr, hn]
  · cases hbc : acquireBusyCheck "simple" none wc name with
    | some m => simp [acquire, lookupStr, hbc]
    | none =>
      simp [acquire, lookupStr, hbc, acquireCommitAndSync,
        syncCheckConflict, runGit, allOk]
  · cases hbc : acquireBusyCheck "readwrite" (some "read") wc name with
    | some m => simp [acquire, lookupStr, hbc]
    | none =>
      simp [acquire, lookupStr, hbc, acquireCommitAndSync,
        syncCheckConflict, runGit, allOk]
  · cases hbc : acquireBusyCheck "readwrite" (some "write") wc name with
    | some m => simp [acquire, lookupStr, hbc]
    | none =>
      simp [acquire, lookupStr, hbc, acquireCommitAndSync,
        syncCheckConflict, runGit, allOk]

/-- **C6** (amended). For every release invocation with force (no token) on
a lock whose file `name` exists at the root: if the declared kind is
`readwrite` the operation fails with ForceReleaseAmbiguous and the remote
is untouched (no file removed, no git command run, for any git
environment); if the declared kind is `simple`, `name` is removed and the
release is committed and synced (returning normally when git succeeds). -/
theorem release_force_amended (env : Nat → Bool) (cfg : SligConfig)
    (wc : WorkingCopy) (name : String) :
    (lookupStr cfg.locks name = some "readwrite" →
      fileExists wc name = true →
      release env cfg wc name none =
        ⟨.exit 1, wc, ⟨0, []⟩, cfg,
         ["Read-write lock " ++ name ++
           " cannot be force-released, try doing it manually"]⟩) ∧
    (lookupStr cfg.locks name = some "simple" →
      fileExists wc name = true →
      release allOk cfg wc name none =
        ⟨.ret none, removeFile wc name,
         ⟨3, [["rm", name], ["commit", "-m", "release lock: " ++ name],
              ["push"]]⟩, cfg, []⟩) := by
  constructor
  · intro hk hex
    simp [release, hk, hex, uuidTruthy]
  · intro hk hex
    simp [release, hk, hex, uuidTruthy, releaseRemovePhase,
      releaseCommitSync, syncCheckConflict, runGit, allOk]

/-- Witness for `release_force_amended`: both branches at concrete held
locks. -/
theorem release_force_amended_witness :
    release allOk ⟨[("rw", "readwrite")]⟩ ⟨[("rw", "READ")]⟩ "rw" none =
      ⟨.exit 1, ⟨[("rw", "READ")]⟩, ⟨0, []⟩, ⟨[("rw", "readwrite")]⟩,
       ["Read-write lock rw cannot be force-released, try doing it manually"]⟩ ∧
    release allOk ⟨[("b", "simple")]⟩ ⟨[("b", "tok")]⟩ "b" none =
      ⟨.ret none, removeFile ⟨[("b", "tok")]⟩ "b",
       ⟨3, [["rm", "b"], ["commit", "-m", "release lock: b"], ["push"]]⟩,
       ⟨[("b", "simple")]⟩, []⟩ :=
  ⟨(release_force_amended allOk ⟨[("rw", "readwrite")]⟩ ⟨[("rw", "READ")]⟩
      "rw").1 rfl rfl,
   (release_force_amended allOk ⟨[("b", "simple")]⟩ ⟨[("b", "tok")]⟩
      "b").2 rfl rfl⟩

/-- **C7** (amended). For every declared lock, `remove_lock` fails with
LockInUse — leaving the configuration, the working copy and the git state
untouched — exactly when a file named `name` itself exists at the root;
files matching `name.read.*` alone do not block removal: when `name` is
absent the entry is deleted from the configuration, the configuration file
is staged, and the removal is committed and pushed. -/
theorem remove_lock_amended (cfg : SligConfig) (wc : WorkingCopy)
    (name kind : String) (hk : lookupStr cfg.locks name = some kind) :
    remove_lock allOk cfg wc name =
      if fileExists wc name then
        ⟨.exit 1, wc, ⟨0, []⟩, cfg,
         ["Failed to remove lock " ++ name ++
           " which is currently acquired. Release it before removing."]⟩
      else
        ⟨.ret none,
         writeFile wc repoConfigFilename
           (configWrite ⟨cfg.locks.filter (fun p => p.1 != name)⟩),
         ⟨3, [["add", repoConfigFilename],
              ["commit", "-m", "remove lock: " ++ name], ["push"]]⟩,
         ⟨cfg.locks.filter (fun p => p.1 != name)⟩, []⟩ := by
  by_cases hex : fileExists wc name
  · simp [remove_lock, hk, hex]
  · simp [remove_lock, hk, hex, stageConfigCommitPush, runGit, allOk]

/-- Witness for `remove_lock_amended`: removing an unheld declared lock
commits and pushes the config with the entry deleted. -/
theorem remove_lock_amended_witness :
    remove_lock allOk ⟨[("x", "simple")]⟩ ⟨[]⟩ "x" =
      ⟨.ret none,
       writeFile ⟨[]⟩ repoConfigFilename (configWrite ⟨[]⟩),
       ⟨3, [["add", repoConfigFilename],
            ["commit", "-m", "remove lock: x"], ["push"]]⟩,
       ⟨[]⟩, []⟩ := by
  have h := remove_lock_amended ⟨[("x", "simple")]⟩ ⟨[]⟩ "x" "simple" rfl
  simpa using h

/-- **C8** (amended). After every successful acquire in read mode of a
declared `readwrite` lock with generated token `t`, the file
`name.read.t` contains exactly `t` and the file `name` contains exactly
the four ASCII characters `READ` with no trailing newline. -/
theorem acquire_read_contents_amended (wc : WorkingCopy) (name t : String)
    (hbusy : acquireBusyCheck "readwrite" (some "read") wc name = none) :
    (acquire allOk ⟨[(name, "readwrite")]⟩ wc name none (some "read")
        t).outcome = .ret (some t) ∧
    readFile (acquire allOk ⟨[(name, "readwrite")]⟩ wc name none
        (some "read") t).wc name = some "READ" ∧
    readFile (acquire allOk ⟨[(name, "readwrite")]⟩ wc name none
        (some "read") t).wc (name ++ ".read." ++ t) = some t := by
  have hne : name ++ ".read." ++ t ≠ name := by
    intro h
    have hlen := congrArg String.length h
    rw [String.length_append, String.length_append] at hlen
    have h6 : (".read." : String).length = 6 := rfl
    rw [h6] at hlen
    omega
  refine ⟨?_, ?_, ?_⟩
  · simp [acquire, lookupStr, hbusy, acquireCommitAndSync,
      syncCheckConflict, runGit, allOk]
  · simp [acquire, lookupStr, hbusy, acquireCommitAndSync,
      syncCheckConflict, runGit, allOk, readFile_writeFile]
  · simp [acquire, lookupStr, hbusy, acquireCommitAndSync,
      syncCheckConflict, runGit, allOk, readFile_writeFile, hne]

/-- Witness for `acquire_read_contents_amended` on an empty working copy. -/
theorem acquire_read_contents_amended_witness :
    (acquire allOk ⟨[("d", "readwrite")]⟩ ⟨[]⟩ "d" none (some "read")
        "t9").outcome = .ret (some "t9") ∧
    readFile (acquire allOk ⟨[("d", "readwrite")]⟩ ⟨[]⟩ "d" none
        (some "read") "t9").wc "d" = some "READ" ∧
    readFile (acquire allOk ⟨[("d", "readwrite")]⟩ ⟨[]⟩ "d" none
        (some "read") "t9").wc ("d" ++ ".read." ++ "t9") = some "t9" :=
  acquire_read_contents_amended ⟨[]⟩ "d" "t9" rfl

/-- **C5** (confirmed). Releasing a reader-held lock (`name` has first line
`READ` and `name.read.<token>` exists) with the token, on a duplicate-free
working copy with every git call succeeding: when `name.read.<token>` is
the only `name.read.*` file, both it and `name` are removed; when more
than one reader file exists, only `name.read.<token>` is removed and
`name` together with every other reader file is left in place (the final
working copy is exactly the original minus that one file). -/
theorem release_reader_removes (cfg : SligConfig) (wc : WorkingCopy)
    (name t kind c : String)
    (hk : lookupStr cfg.locks name = some kind)
    (hc : readFile wc name = some c)
    (hREAD : readline c = "READ")
    (hr : fileExists wc (name ++ ".read." ++ t) = true)
    (ht : t ≠ "")
    (hnodup : (fileNames wc).Nodup) :
    (release allOk cfg wc name (some t)).outcome = .ret none ∧
    (release allOk cfg wc name (some t)).wc =
      (if numReadLockAcquired wc name = 1
       then removeFile (removeFile wc (name ++ ".read." ++ t)) name
       else removeFile wc (name ++ ".read." ++ t)) := by
  have hex : fileExists wc name = true := fileExists_of_readFile hc
  have hcount := numRead_removeFile wc name (name ++ ".read." ++ t) hnodup hr
    (pyStartswith_append (name ++ ".read.") t)
  by_cases hz :
      numReadLockAcquired (removeFile wc (name ++ ".read." ++ t)) name = 0
  · have hone : numReadLockAcquired wc name = 1 := by omega
    constructor
    · simp [release, hk, hex, uuidTruthy, ht, hc, hREAD, hr,
        releaseRemovePhase, releaseCommitSync, syncCheckConflict, runGit,
        allOk, hz]
    · simp [release, hk, hex, uuidTruthy, ht, hc, hREAD, hr,
        releaseRemovePhase, releaseCommitSync, syncCheckConflict, runGit,
        allOk, hz, hone]
  · have hone : numReadLockAcquired wc name ≠ 1 := by omega
    constructor
    · simp [release, hk, hex, uuidTruthy, ht, hc, hREAD, hr,
        releaseRemovePhase, releaseCommitSync, syncCheckConflict, runGit,
        allOk, hz]
    · simp [release, hk, hex, uuidTruthy, ht, hc, hREAD, hr,
        releaseRemovePhase, releaseCommitSync, syncCheckConflict, runGit,
        allOk, hz, hone]

/-- Witness for `release_reader_removes`: with two readers, releasing one
removes only that reader file. -/
theorem release_reader_removes_witness :
    (release allOk ⟨[("m", "readwrite")]⟩
        ⟨[("m", "READ"), ("m.read.a", "a"), ("m.read.b", "b")]⟩ "m"
        (some "a")).outcome = .ret none ∧
    (release allOk ⟨[("m", "readwrite")]⟩
        ⟨[("m", "READ"), ("m.read.a", "a"), ("m.read.b", "b")]⟩ "m"
        (some "a")).wc = ⟨[("m", "READ"), ("m.read.b", "b")]⟩ := by
  have h := release_reader_removes ⟨[("m", "readwrite")]⟩
    ⟨[("m", "READ"), ("m.read.a", "a"), ("m.read.b", "b")]⟩ "m" "a"
    "readwrite" "READ" rfl rfl rfl (by decide) (by decide) (by decide)
  rw [if_neg (by decide)] at h
  exact h

end Slig
